import Mathlib

/-!
Shallow embedding of the identity/state-reconciliation core of the
Sejong dental QR generator:

* `normalize.py` — clinic-name normalization,
* `io_excel.py`  — roster reading and validation,
* `id_map.py`    — the persistent name → clinic_id store (`update_id_map`),
* `planner.py`   — change classification between two snapshots (`build_changes`).

Cell values and timestamps are strings, as in the CSV-backed store
(`load_id_map` reads with `dtype=str, keep_default_na=False`).  The impure
timestamp `_now_iso()` is passed in as an explicit `now : String` argument.
-/

namespace DentQR

/-! ### Character and decimal-formatting helpers

Embeds Python's decimal formatting (`f"{n:02d}"`, `f"{n:04d}"`), `str.strip()`
and the `(\d+)$` suffix parsing used by `_max_existing_number`. -/

/-- The decimal digit character for `n < 10` (as produced by `{:d}` formatting). -/
def digitChar (n : Nat) : Char :=
  match n with
  | 0 => '0' | 1 => '1' | 2 => '2' | 3 => '3' | 4 => '4'
  | 5 => '5' | 6 => '6' | 7 => '7' | 8 => '8' | 9 => '9'
  | _ => '*'

/-- Numeric value of a digit character (Python's `int` on a digit string). -/
def charVal (c : Char) : Nat := c.toNat - 48

/-- Value of a decimal digit string, as computed by Python's `int(...)`. -/
def digitsToNat (ds : List Char) : Nat :=
  ds.foldl (fun acc c => 10 * acc + charVal c) 0

/-- Decimal digits of `n`, most significant first (fuel-based so that it
reduces definitionally; `natDigits` supplies enough fuel). -/
def natDigitsAux : Nat → Nat → List Char
  | 0, _ => []
  | fuel + 1, n =>
    if n < 10 then [digitChar n] else natDigitsAux fuel (n / 10) ++ [digitChar (n % 10)]

/-- Decimal digits of `n`, most significant first. -/
def natDigits (n : Nat) : List Char := natDigitsAux (n + 1) n

/-- Left-pad a digit string with `'0'` up to `width` (Python `{:0Nd}`). -/
def zeroPad (width : Nat) (ds : List Char) : List Char :=
  List.replicate (width - ds.length) '0' ++ ds

/-- Python `str.strip()` on a character list: drop leading and trailing
whitespace. -/
def stripChars (l : List Char) : List Char :=
  ((l.dropWhile Char.isWhitespace).reverse.dropWhile Char.isWhitespace).reverse

/-- Python `str.strip()` on a string. -/
def pyStrip (s : String) : String := ⟨stripChars s.data⟩

/-- Literal-prefix test on character lists (the `re.escape(prefix)` part of
the clinic-id pattern). -/
def isPrefixOfC : List Char → List Char → Bool
  | [], _ => true
  | _ :: _, [] => false
  | a :: as, b :: bs => a == b && isPrefixOfC as bs

/-- Python's lexicographic (code-point) string comparison `a <= b`,
on character lists. -/
def lexLe : List Char → List Char → Bool
  | [], _ => true
  | _ :: _, [] => false
  | a :: as, b :: bs =>
    if a.toNat < b.toNat then true
    else if b.toNat < a.toNat then false
    else lexLe as bs

/-- Python's `a <= b` on strings, as a proposition (used as the sort order of
`sorted(...)`). -/
def strLe (a b : String) : Prop := lexLe a.data b.data = true

instance : DecidableRel strLe := fun a b => by
  unfold strLe; infer_instance

/-- Python `sorted(...)` on strings: ascending lexicographic order. -/
def pySorted (l : List String) : List String := List.insertionSort strLe l

/-! ### `normalize.py` -/

/-- Python `str.split()` with no separator: split on whitespace runs,
dropping empty pieces.  `acc` holds the current word, reversed. -/
def wordsAux : List Char → List Char → List (List Char)
  | [], acc => if acc.isEmpty then [] else [acc.reverse]
  | c :: rest, acc =>
    if c.isWhitespace then
      if acc.isEmpty then wordsAux rest [] else acc.reverse :: wordsAux rest []
    else wordsAux rest (c :: acc)

/-- Function `normalize_name(raw)`: `" ".join(raw.strip().split())` — trim and
collapse whitespace runs to single spaces. -/
def normalize_name (raw : String) : String :=
  String.intercalate " " ((wordsAux raw.data []).map String.mk)

/-! ### Data model (`io_excel.py`, `id_map.py`, `planner.py`) -/

/-- One validated roster row (`ClinicInput` in `io_excel.py`). -/
structure ClinicInput where
  name : String
  address : String
  phone : String
  director : String
  homepage : String
deriving DecidableEq, Repr

/-- One row of the persistent `id_map` store, all cells text. -/
structure Row where
  clinic_id : String
  clinic_name : String
  status : String
  first_seen_at : String
  last_seen_at : String
  address : String
  phone : String
  director : String
  homepage : String
deriving DecidableEq, Repr

/-- Return value of `update_id_map`. -/
structure IdMapResult where
  data : List Row
  new_ids : List String
deriving DecidableEq, Repr

/-! ### `id_map.py` -/

/-- Helper `_merge_field`: a non-empty incoming value overwrites, an empty one keeps
the stored value. -/
def merge_field (newValue oldValue : String) : String :=
  if newValue ≠ "" then newValue else oldValue

/-- The id prefix `f"SJ{year % 100:02d}-"`. -/
def id_prefix_of (year : Nat) : String :=
  ⟨'S' :: 'J' :: (zeroPad 2 (natDigits (year % 100)) ++ ['-'])⟩

/-- A minted clinic id `f"{prefix}{max_number:04d}"`. -/
def mkId (pre : String) (n : Nat) : String :=
  ⟨pre.data ++ zeroPad 4 (natDigits n)⟩

/-- The numeric suffix of a clinic id matching `re.escape(prefix) + r"(\d+)$"`
against the stripped id, if any (`_max_existing_number`'s per-id parse). -/
def suffixNum (pre : String) (clinicId : String) : Option Nat :=
  let t := stripChars clinicId.data
  if isPrefixOfC pre.data t then
    let rest := t.drop pre.data.length
    if rest ≠ [] ∧ rest.all Char.isDigit then some (digitsToNat rest) else none
  else none

/-- Helper `_max_existing_number`: maximum numeric suffix among ids with the given
literal prefix, `0` when none match. -/
def max_existing_number (clinicIds : List String) (pre : String) : Nat :=
  clinicIds.foldl
    (fun m cid => match suffixNum pre cid with | some k => max m k | none => m) 0

/-- Body of the first loop of `update_id_map`, updating one stored row
against this build's input.  The `find?` is the `record_by_name.get(name)`
lookup (input names are duplicate-free when this runs, so the first match is
the unique match). -/
def update_row (records : List ClinicInput) (now : String) (row : Row) : Row :=
  match records.find? (fun r => r.name == row.clinic_name) with
  | some r =>
    { clinic_id := row.clinic_id
      clinic_name := row.clinic_name
      status := "ACTIVE"
      first_seen_at := row.first_seen_at
      last_seen_at := now
      address := merge_field r.address row.address
      phone := merge_field r.phone row.phone
      director := merge_field r.director row.director
      homepage := merge_field r.homepage row.homepage }
  | none => { row with status := "INACTIVE" }

/-- A newly minted row of the second loop of `update_id_map`; the name is
always a name of `records` when this runs (`record_by_name[name]`). -/
def minted_row (records : List ClinicInput) (pre now : String)
    (name : String) (n : Nat) : Row :=
  let r := (records.find? (fun x => x.name == name)).getD
    { name := name, address := "", phone := "", director := "", homepage := "" }
  { clinic_id := mkId pre n
    clinic_name := name
    status := "ACTIVE"
    first_seen_at := now
    last_seen_at := now
    address := r.address
    phone := r.phone
    director := r.director
    homepage := r.homepage }

/-- The minting loop of `update_id_map`: walk the new names incrementing the
running maximum, producing the new rows and the new ids in order. -/
def mint_new (records : List ClinicInput) (pre now : String) :
    List String → Nat → List Row × List String
  | [], _ => ([], [])
  | name :: rest, maxNumber =>
    let tail := mint_new records pre now rest (maxNumber + 1)
    (minted_row records pre now name (maxNumber + 1) :: tail.1,
     mkId pre (maxNumber + 1) :: tail.2)

/-- Python `sorted(active_names - existing_names)`: the input names not yet in the
store, deduplicated and in ascending lexicographic order. -/
def new_names_of (records : List ClinicInput) (existing : List Row) : List String :=
  pySorted (((records.map (·.name)).dedup).filter
    (fun n => decide (n ∉ existing.map (·.clinic_name))))

/-- Function `update_id_map(clinic_records, year, existing_df)`: validate, update every
stored row, then mint ids for the new names.  `now` stands for `_now_iso()`. -/
def update_id_map (records : List ClinicInput) (year : Nat) (existing : List Row)
    (now : String) : Except String IdMapResult :=
  if ¬ (records.map (·.name)).Nodup then
    .error "Duplicate clinic names provided to update_id_map"
  else if ¬ (existing.map (·.clinic_name)).Nodup then
    .error ("id_map has duplicate clinic names: " ++
      String.intercalate ", "
        (pySorted ((existing.map (·.clinic_name)).dedup.filter
          (fun n => decide ((existing.map (·.clinic_name)).count n > 1)))))
  else
    let pre := id_prefix_of year
    let maxNumber := max_existing_number (existing.map (·.clinic_id)) pre
    let updatedRows := existing.map (update_row records now)
    let minted := mint_new records pre now (new_names_of records existing) maxNumber
    .ok { data := updatedRows ++ minted.1, new_ids := minted.2 }

/-- Iterated reconciliation: apply `update_id_map` for each build step
`(inputs, year, build time)` in order, threading the snapshot. -/
def reconcile_many : List (List ClinicInput × Nat × String) → List Row →
    Except String (List Row)
  | [], rows => .ok rows
  | (ins, yr, now) :: rest, rows =>
    match update_id_map ins yr rows now with
    | .error e => .error e
    | .ok res => reconcile_many rest res.data

/-! ### `planner.py` -/

/-- One classified change (`ChangeRecord` in `planner.py`). -/
structure ChangeRecord where
  clinic_id : String
  clinic_name : String
  change_type : String
deriving DecidableEq, Repr

/-- Python `dict` insertion: overwrite in place if the key exists, else
append (keys stay duplicate-free and in first-insertion order). -/
def dict_insert {α : Type} : List (String × α) → String → α → List (String × α)
  | [], k, v => [(k, v)]
  | (k', v') :: rest, k, v =>
    if k' = k then (k, v) :: rest else (k', v') :: dict_insert rest k v

/-- The loop body of `_to_lookup`: skip a row whose stripped id is empty,
else store its stripped `(clinic_name, status)` under the stripped id. -/
def lookup_step (acc : List (String × (String × String))) (row : Row) :
    List (String × (String × String)) :=
  let cid := pyStrip row.clinic_id
  if cid = "" then acc
  else dict_insert acc cid (pyStrip row.clinic_name, pyStrip row.status)

/-- Helper `_to_lookup`: index a snapshot by stripped `clinic_id`, skipping rows
whose stripped id is empty; each entry keeps the stripped
`(clinic_name, status)` of the last row with that id. -/
def to_lookup (df : List Row) : List (String × (String × String)) :=
  df.foldl lookup_step []

/-- Python `dict.get`: the value stored under `k`, if any. -/
def lookup_get {α : Type} (l : List (String × α)) (k : String) : Option α :=
  (l.find? (fun kv => kv.1 == k)).map (·.2)

/-- The classification branch of `build_changes` for one id of `next`. -/
def classify_change (prevRow : Option (String × String)) (nextStatus : String) :
    String :=
  match prevRow with
  | none => "NEW"
  | some (_, prevStatus) =>
    if prevStatus = "ACTIVE" ∧ nextStatus = "INACTIVE" then "DEACTIVATED"
    else if prevStatus = "INACTIVE" ∧ nextStatus = "ACTIVE" then "REACTIVATED"
    else "UNCHANGED"

/-- Function `build_changes(df_prev, df_next)`: one `ChangeRecord` per id of the next
lookup, classified against the previous lookup. -/
def build_changes (dfPrev dfNext : List Row) : List ChangeRecord :=
  let prevLookup := to_lookup dfPrev
  (to_lookup dfNext).map
    (fun kv =>
      { clinic_id := kv.1
        clinic_name := kv.2.1
        change_type := classify_change (lookup_get prevLookup kv.1) kv.2.2 })

/-! ### `io_excel.py` -/

/-- A spreadsheet: its column names and its rows, each row an association
from column name to cell (`none` models a NaN/absent cell). -/
structure Sheet where
  columns : List String
  rows : List (List (String × Option String))
deriving DecidableEq, Repr

/-- The cell of `row` under column `col` (`none` when absent/NaN). -/
def getCell (row : List (String × Option String)) (col : String) : Option String :=
  (row.lookup col).join

/-- Helper `_clean_text`: NaN becomes the empty string, text is stripped. -/
def clean_text : Option String → String
  | none => ""
  | some s => pyStrip s

/-- The validation failures of `read_clinic_records` (both `ValueError`s in
the source). -/
inductive ReadError where
  | missingColumns (cols : List String)
  | duplicateNames (names : List String)
deriving DecidableEq, Repr

/-- The per-row body of `read_clinic_records`: skip a row whose name cell is
NaN or normalizes to empty, otherwise build its `ClinicInput`. -/
def row_to_input (nameCol addressCol phoneCol directorCol homepageCol : String)
    (row : List (String × Option String)) : Option ClinicInput :=
  match getCell row nameCol with
  | none => none
  | some rawName =>
    let name := normalize_name rawName
    if name = "" then none
    else
      some
        { name := name
          address := clean_text (getCell row addressCol)
          phone := clean_text (getCell row phoneCol)
          director := clean_text (getCell row directorCol)
          homepage := clean_text (getCell row homepageCol) }

/-- The converted rows of a sheet (the `records` list of
`read_clinic_records`). -/
def roster_inputs (sheet : Sheet)
    (nameCol addressCol phoneCol directorCol homepageCol : String) :
    List ClinicInput :=
  sheet.rows.filterMap (row_to_input nameCol addressCol phoneCol directorCol homepageCol)

/-- Helper `_find_duplicates`: the values occurring more than once. -/
def roster_duplicates (names : List String) : List String :=
  names.dedup.filter (fun n => decide (names.count n > 1))

/-- Function `read_clinic_records`: check the five configured columns exist, convert
the rows, then fail on duplicate normalized names. -/
def read_clinic_records (sheet : Sheet)
    (nameCol addressCol phoneCol directorCol homepageCol : String) :
    Except ReadError (List ClinicInput) :=
  if ([nameCol, addressCol, phoneCol, directorCol, homepageCol].filter
      (fun c => decide (c ∉ sheet.columns))) ≠ [] then
    .error (.missingColumns
      ([nameCol, addressCol, phoneCol, directorCol, homepageCol].filter
        (fun c => decide (c ∉ sheet.columns))))
  else if roster_duplicates ((roster_inputs sheet nameCol addressCol phoneCol
      directorCol homepageCol).map (·.name)) ≠ [] then
    .error (.duplicateNames (pySorted (roster_duplicates
      ((roster_inputs sheet nameCol addressCol phoneCol directorCol
        homepageCol).map (·.name)))))
  else
    .ok (roster_inputs sheet nameCol addressCol phoneCol directorCol homepageCol)

deriving instance DecidableEq for Except

/-! ## Lemmas about decimal formatting and suffix parsing -/

theorem digitChar_isDigit {n : Nat} (h : n < 10) : (digitChar n).isDigit = true := by
  interval_cases n <;> decide

theorem charVal_digitChar {n : Nat} (h : n < 10) : charVal (digitChar n) = n := by
  interval_cases n <;> decide

theorem digitsToNat_append (a : List Char) (c : Char) :
    digitsToNat (a ++ [c]) = 10 * digitsToNat a + charVal c := by
  unfold digitsToNat
  rw [List.foldl_append]
  rfl

theorem natDigitsAux_spec :
    ∀ fuel n, n < fuel →
      natDigitsAux fuel n ≠ [] ∧ (natDigitsAux fuel n).all Char.isDigit = true ∧
        digitsToNat (natDigitsAux fuel n) = n := by
  intro fuel
  induction fuel with
  | zero => intro n hn; omega
  | succ fuel ih =>
    intro n hn
    by_cases h10 : n < 10
    · refine ⟨by simp [natDigitsAux, h10], ?_, ?_⟩
      · simp [natDigitsAux, h10, digitChar_isDigit h10]
      · simp [natDigitsAux, h10, digitsToNat, charVal_digitChar h10]
    · have hdiv : n / 10 < fuel := by
        have := Nat.div_lt_self (by omega : 0 < n) (by omega : 1 < 10)
        omega
      obtain ⟨ih1, ih2, ih3⟩ := ih (n / 10) hdiv
      have hmod : n % 10 < 10 := Nat.mod_lt _ (by omega)
      refine ⟨by simp [natDigitsAux, h10], ?_, ?_⟩
      · simp only [natDigitsAux, if_neg h10, List.all_append, List.all_cons,
          List.all_nil, Bool.and_true, ih2, digitChar_isDigit hmod,
          Bool.true_and]
      · simp only [natDigitsAux, if_neg h10]
        rw [digitsToNat_append, ih3, charVal_digitChar hmod]
        omega

theorem natDigits_ne_nil (n : Nat) : natDigits n ≠ [] :=
  (natDigitsAux_spec (n + 1) n (Nat.lt_succ_self n)).1

theorem natDigits_all_isDigit (n : Nat) : (natDigits n).all Char.isDigit = true :=
  (natDigitsAux_spec (n + 1) n (Nat.lt_succ_self n)).2.1

theorem digitsToNat_natDigits (n : Nat) : digitsToNat (natDigits n) = n :=
  (natDigitsAux_spec (n + 1) n (Nat.lt_succ_self n)).2.2

theorem foldl_digits_replicate_zero (k : Nat) :
    List.foldl (fun acc c => 10 * acc + charVal c) 0 (List.replicate k '0') = 0 := by
  induction k with
  | zero => rfl
  | succ k ih => simpa [List.replicate_succ, charVal] using ih

theorem digitsToNat_zeroPad (w : Nat) (ds : List Char) :
    digitsToNat (zeroPad w ds) = digitsToNat ds := by
  unfold digitsToNat zeroPad
  rw [List.foldl_append, foldl_digits_replicate_zero]

theorem zeroPad_ne_nil {w : Nat} {ds : List Char} (h : ds ≠ []) : zeroPad w ds ≠ [] := by
  unfold zeroPad
  simp [h]

theorem zeroPad_all_isDigit {w : Nat} {ds : List Char}
    (h : ds.all Char.isDigit = true) : (zeroPad w ds).all Char.isDigit = true := by
  unfold zeroPad
  rw [List.all_append, h]
  have : (List.replicate (w - ds.length) '0').all Char.isDigit = true := by
    rw [List.all_eq_true]
    intro c hc
    rw [List.eq_of_mem_replicate hc]
    decide
  simp [this]

theorem isDigit_not_isWhitespace {c : Char} (h : c.isDigit = true) :
    c.isWhitespace = false := by
  cases hw : c.isWhitespace
  · rfl
  · exfalso
    have : ((c = ' ' ∨ c = '\t') ∨ c = '\r') ∨ c = '\n' := by
      simpa [Char.isWhitespace] using hw
    rcases this with ((rfl | rfl) | rfl) | rfl <;> exact absurd h (by decide)

theorem dropWhile_eq_self_of {p : Char → Bool} {l : List Char}
    (h : ∀ c, l.head? = some c → p c = false) : l.dropWhile p = l := by
  cases l with
  | nil => rfl
  | cons a t => simp [List.dropWhile_cons, h a rfl]

theorem stripChars_eq_self {l : List Char}
    (h1 : ∀ c, l.head? = some c → c.isWhitespace = false)
    (h2 : ∀ c, l.getLast? = some c → c.isWhitespace = false) :
    stripChars l = l := by
  unfold stripChars
  rw [dropWhile_eq_self_of h1]
  rw [dropWhile_eq_self_of (by intro c hc; exact h2 c (by rwa [List.head?_reverse] at hc))]
  exact List.reverse_reverse l

theorem isPrefixOfC_append (p r : List Char) : isPrefixOfC p (p ++ r) = true := by
  induction p with
  | nil => rfl
  | cons a as ih => simp [isPrefixOfC, ih]

theorem suffixNum_mkId (year n : Nat) :
    suffixNum (id_prefix_of year) (mkId (id_prefix_of year) n) = some n := by
  have hzne : zeroPad 4 (natDigits n) ≠ [] := zeroPad_ne_nil (natDigits_ne_nil n)
  have hzall : (zeroPad 4 (natDigits n)).all Char.isDigit = true :=
    zeroPad_all_isDigit (natDigits_all_isDigit n)
  have hdata : (mkId (id_prefix_of year) n).data =
      (id_prefix_of year).data ++ zeroPad 4 (natDigits n) := rfl
  have hstrip : stripChars ((id_prefix_of year).data ++ zeroPad 4 (natDigits n)) =
      (id_prefix_of year).data ++ zeroPad 4 (natDigits n) := by
    apply stripChars_eq_self
    · intro c hc
      have : 'S' = c := by
        simpa [id_prefix_of] using hc
      subst this; decide
    · intro c hc
      rw [List.getLast?_append_of_ne_nil _ hzne] at hc
      have hmem : c ∈ zeroPad 4 (natDigits n) := by
        obtain ⟨hne, hco⟩ :=
          List.mem_getLast?_eq_getLast (Option.mem_def.mpr hc)
        rw [hco]
        exact List.getLast_mem hne
      exact isDigit_not_isWhitespace (by
        rw [List.all_eq_true] at hzall
        exact hzall c hmem)
  unfold suffixNum
  simp only [hdata, hstrip, isPrefixOfC_append, if_pos, List.drop_left]
  rw [if_pos ⟨hzne, hzall⟩]
  rw [digitsToNat_zeroPad, digitsToNat_natDigits]

theorem mkId_inj {year a b : Nat}
    (h : mkId (id_prefix_of year) a = mkId (id_prefix_of year) b) : a = b := by
  have := congrArg (suffixNum (id_prefix_of year)) h
  rw [suffixNum_mkId, suffixNum_mkId] at this
  exact Option.some_injective _ this

theorem le_foldl_max (pre : String) (l : List String) (a : Nat) :
    a ≤ l.foldl
      (fun m cid => match suffixNum pre cid with | some k => max m k | none => m) a := by
  induction l generalizing a with
  | nil => exact Nat.le_refl a
  | cons x t ih =>
    refine Nat.le_trans ?_ (ih _)
    cases hsx : suffixNum pre x with
    | none => simp [hsx]
    | some k => simp [hsx, Nat.le_max_left]

theorem suffix_le_max_existing {pre : String} {l : List String} {x : String} {k : Nat}
    (hx : x ∈ l) (hk : suffixNum pre x = some k) : k ≤ max_existing_number l pre := by
  unfold max_existing_number
  suffices h : ∀ a : Nat, k ≤ l.foldl
      (fun m cid => match suffixNum pre cid with | some j => max m j | none => m) a by
    exact h 0
  intro a
  induction l generalizing a with
  | nil => cases hx
  | cons y t ih =>
    rcases List.mem_cons.mp hx with rfl | hxt
    · refine Nat.le_trans ?_ (le_foldl_max pre t _)
      simp [hk, Nat.le_max_right]
    · exact ih hxt _

/-! ## The lexicographic order used by `sorted(...)` -/

theorem lexLe_cons {a b : Char} {as bs : List Char} :
    lexLe (a :: as) (b :: bs) = true ↔
      (a.toNat < b.toNat ∨ (a.toNat = b.toNat ∧ lexLe as bs = true)) := by
  show (if a.toNat < b.toNat then true
    else if b.toNat < a.toNat then false else lexLe as bs) = true ↔ _
  split_ifs with h1 h2
  · exact iff_of_true rfl (Or.inl h1)
  · exact iff_of_false (by simp) (by rintro (h | ⟨h, _⟩) <;> omega)
  · have he : a.toNat = b.toNat := by omega
    constructor
    · intro h; exact Or.inr ⟨he, h⟩
    · rintro (h | ⟨_, h⟩)
      · omega
      · exact h


theorem lexLe_total : ∀ a b : List Char, lexLe a b = true ∨ lexLe b a = true
  | [], _ => Or.inl rfl
  | _ :: _, [] => Or.inr rfl
  | a :: as, b :: bs => by
    rcases Nat.lt_trichotomy a.toNat b.toNat with h | h | h
    · exact Or.inl (lexLe_cons.mpr (Or.inl h))
    · rcases lexLe_total as bs with h' | h'
      · exact Or.inl (lexLe_cons.mpr (Or.inr ⟨h, h'⟩))
      · exact Or.inr (lexLe_cons.mpr (Or.inr ⟨h.symm, h'⟩))
    · exact Or.inr (lexLe_cons.mpr (Or.inl h))

theorem lexLe_trans : ∀ a b c : List Char,
    lexLe a b = true → lexLe b c = true → lexLe a c = true
  | [], _, _, _, _ => rfl
  | _ :: _, [], _, hab, _ => by cases hab
  | _ :: _, _ :: _, [], _, hbc => by cases hbc
  | a :: as, b :: bs, c :: cs, hab, hbc => by
    rcases lexLe_cons.mp hab with h1 | ⟨h1, h1'⟩ <;>
      rcases lexLe_cons.mp hbc with h2 | ⟨h2, h2'⟩
    · exact lexLe_cons.mpr (Or.inl (Nat.lt_trans h1 h2))
    · exact lexLe_cons.mpr (Or.inl (by omega))
    · exact lexLe_cons.mpr (Or.inl (by omega))
    · exact lexLe_cons.mpr (Or.inr ⟨by omega, lexLe_trans as bs cs h1' h2'⟩)

instance : IsTotal String strLe :=
  ⟨fun a b => lexLe_total a.data b.data⟩

instance : IsTrans String strLe :=
  ⟨fun a b c => lexLe_trans a.data b.data c.data⟩

theorem pySorted_sorted (l : List String) : List.Sorted strLe (pySorted l) :=
  List.sorted_insertionSort strLe l

theorem pySorted_perm (l : List String) : List.Perm (pySorted l) l :=
  List.perm_insertionSort strLe l

theorem pySorted_mem {x : String} {l : List String} : x ∈ pySorted l ↔ x ∈ l :=
  (pySorted_perm l).mem_iff

theorem pySorted_nodup {l : List String} (h : l.Nodup) : (pySorted l).Nodup :=
  ((pySorted_perm l).nodup_iff).mpr h

/-! ## Characterization of `update_id_map` -/

theorem update_row_clinic_id (records : List ClinicInput) (now : String) (row : Row) :
    (update_row records now row).clinic_id = row.clinic_id := by
  unfold update_row
  cases records.find? (fun r => r.name == row.clinic_name) <;> rfl

theorem update_row_clinic_name (records : List ClinicInput) (now : String) (row : Row) :
    (update_row records now row).clinic_name = row.clinic_name := by
  unfold update_row
  cases records.find? (fun r => r.name == row.clinic_name) <;> rfl

theorem update_row_first_seen (records : List ClinicInput) (now : String) (row : Row) :
    (update_row records now row).first_seen_at = row.first_seen_at := by
  unfold update_row
  cases records.find? (fun r => r.name == row.clinic_name) <;> rfl

theorem find?_name_isSome {records : List ClinicInput} {nm : String} :
    (records.find? (fun x => x.name == nm)).isSome = true ↔
      nm ∈ records.map (·.name) := by
  rw [List.find?_isSome]
  constructor
  · rintro ⟨x, hx, hpx⟩
    exact List.mem_map.mpr ⟨x, hx, by simpa using hpx⟩
  · intro hm
    obtain ⟨x, hx, rfl⟩ := List.mem_map.mp hm
    exact ⟨x, hx, by simp⟩

theorem find?_name_of_not_mem {records : List ClinicInput} {nm : String}
    (h : nm ∉ records.map (·.name)) :
    records.find? (fun x => x.name == nm) = none := by
  rw [List.find?_eq_none]
  intro x hx
  simp only [beq_iff_eq]
  intro hxn
  exact h (List.mem_map.mpr ⟨x, hx, hxn⟩)

theorem find?_name_of_mem {records : List ClinicInput} {nm : String}
    (hnd : (records.map (·.name)).Nodup) {r : ClinicInput}
    (hr : r ∈ records) (hname : r.name = nm) :
    records.find? (fun x => x.name == nm) = some r := by
  induction records with
  | nil => cases hr
  | cons y t ih =>
    simp only [List.map_cons, List.nodup_cons] at hnd
    by_cases hy : y.name = nm
    · have hry : r = y := by
        rcases List.mem_cons.mp hr with rfl | hrt
        · rfl
        · exact absurd (List.mem_map.mpr ⟨r, hrt, hname.trans hy.symm⟩) hnd.1
      subst hry
      simp [List.find?, hy]
    · have hrt : r ∈ t := by
        rcases List.mem_cons.mp hr with rfl | hrt
        · exact absurd hname hy
        · exact hrt
      rw [List.find?]
      have : (y.name == nm) = false := by simp [hy]
      rw [this]
      exact ih hnd.2 hrt

theorem update_id_map_eq (records : List ClinicInput) (year : Nat)
    (existing : List Row) (now : String)
    (h1 : (records.map (·.name)).Nodup)
    (h2 : (existing.map (·.clinic_name)).Nodup) :
    update_id_map records year existing now =
      .ok
        { data := existing.map (update_row records now) ++
            (mint_new records (id_prefix_of year) now (new_names_of records existing)
              (max_existing_number (existing.map (·.clinic_id))
                (id_prefix_of year))).1
          new_ids := (mint_new records (id_prefix_of year) now
            (new_names_of records existing)
            (max_existing_number (existing.map (·.clinic_id))
              (id_prefix_of year))).2 } := by
  unfold update_id_map
  split_ifs
  rfl

theorem update_id_map_ok_nodup {records : List ClinicInput} {year : Nat}
    {existing : List Row} {now : String} {res : IdMapResult}
    (h : update_id_map records year existing now = .ok res) :
    (records.map (·.name)).Nodup ∧ (existing.map (·.clinic_name)).Nodup := by
  unfold update_id_map at h
  split_ifs at h with hA hB
  exact ⟨hA, hB⟩

theorem update_id_map_ok_elim {records : List ClinicInput} {year : Nat}
    {existing : List Row} {now : String} {res : IdMapResult}
    (h : update_id_map records year existing now = .ok res) :
    res.data = existing.map (update_row records now) ++
        (mint_new records (id_prefix_of year) now (new_names_of records existing)
          (max_existing_number (existing.map (·.clinic_id)) (id_prefix_of year))).1 ∧
      res.new_ids = (mint_new records (id_prefix_of year) now
        (new_names_of records existing)
        (max_existing_number (existing.map (·.clinic_id)) (id_prefix_of year))).2 := by
  obtain ⟨h1, h2⟩ := update_id_map_ok_nodup h
  rw [update_id_map_eq records year existing now h1 h2] at h
  cases h
  exact ⟨rfl, rfl⟩

theorem mint_new_ids_eq (records : List ClinicInput) (pre now : String) :
    ∀ (ns : List String) (m : Nat),
      (mint_new records pre now ns m).2 =
        (List.range ns.length).map (fun i => mkId pre (m + i + 1)) := by
  intro ns
  induction ns with
  | nil => intro m; rfl
  | cons name rest ih =>
    intro m
    show mkId pre (m + 1) :: (mint_new records pre now rest (m + 1)).2 = _
    rw [ih, List.length_cons, List.range_succ_eq_map, List.map_cons, List.map_map]
    congr 1
    apply List.map_congr_left
    intro i _
    show mkId pre (m + 1 + i + 1) = mkId pre (m + (i + 1) + 1)
    exact congrArg (mkId pre) (by omega)

theorem mint_new_len (records : List ClinicInput) (pre now : String) :
    ∀ (ns : List String) (m : Nat), (mint_new records pre now ns m).2.length = ns.length := by
  intro ns m
  rw [mint_new_ids_eq]
  simp

theorem mint_new_rows_name (records : List ClinicInput) (pre now : String) :
    ∀ (ns : List String) (m : Nat),
      (mint_new records pre now ns m).1.map (·.clinic_name) = ns := by
  intro ns
  induction ns with
  | nil => intro m; rfl
  | cons name rest ih =>
    intro m
    show name :: (mint_new records pre now rest (m + 1)).1.map (·.clinic_name) = _
    rw [ih]

theorem mint_new_rows_id (records : List ClinicInput) (pre now : String) :
    ∀ (ns : List String) (m : Nat),
      (mint_new records pre now ns m).1.map (·.clinic_id) =
        (mint_new records pre now ns m).2 := by
  intro ns
  induction ns with
  | nil => intro m; rfl
  | cons name rest ih =>
    intro m
    show mkId pre (m + 1) :: (mint_new records pre now rest (m + 1)).1.map (·.clinic_id) = _
    rw [ih]
    rfl

theorem mint_new_ids_get (records : List ClinicInput) (pre now : String) :
    ∀ (ns : List String) (m i : Nat) (hi : i < (mint_new records pre now ns m).2.length),
      (mint_new records pre now ns m).2.get ⟨i, hi⟩ = mkId pre (m + i + 1) := by
  intro ns
  induction ns with
  | nil => intro m i hi; simp [mint_new] at hi
  | cons name rest ih =>
    intro m i hi
    cases i with
    | zero => rfl
    | succ i' =>
      show (mint_new records pre now rest (m + 1)).2.get ⟨i', _⟩ = mkId pre (m + (i' + 1) + 1)
      rw [ih]
      exact congrArg (mkId pre) (by omega)

theorem mem_mint_new_rows {records : List ClinicInput} {pre now : String} :
    ∀ {ns : List String} {m : Nat} {row : Row},
      row ∈ (mint_new records pre now ns m).1 →
        row.status = "ACTIVE" ∧ row.clinic_name ∈ ns ∧ row.first_seen_at = now ∧
          row.last_seen_at = now := by
  intro ns
  induction ns with
  | nil => intro m row hr; cases hr
  | cons name rest ih =>
    intro m row hr
    rcases List.mem_cons.mp hr with rfl | hrt
    · exact ⟨rfl, List.mem_cons_self _ _, rfl, rfl⟩
    · obtain ⟨s, hn, f, l⟩ := ih hrt
      exact ⟨s, List.mem_cons_of_mem _ hn, f, l⟩

theorem new_names_nodup (records : List ClinicInput) (existing : List Row) :
    (new_names_of records existing).Nodup :=
  pySorted_nodup (List.Nodup.filter _ (List.nodup_dedup _))

theorem mem_new_names {records : List ClinicInput} {existing : List Row} {nm : String} :
    nm ∈ new_names_of records existing ↔
      nm ∈ records.map (·.name) ∧ nm ∉ existing.map (·.clinic_name) := by
  unfold new_names_of
  rw [pySorted_mem, List.mem_filter, List.mem_dedup]
  simp

theorem update_preserves_row {records : List ClinicInput} {year : Nat}
    {existing : List Row} {now : String} {res : IdMapResult}
    (h : update_id_map records year existing now = .ok res) :
    ∀ row ∈ existing, ∃ row2 ∈ res.data,
      row2.clinic_id = row.clinic_id ∧ row2.clinic_name = row.clinic_name ∧
        row2.first_seen_at = row.first_seen_at := by
  intro row hr
  obtain ⟨hd, _⟩ := update_id_map_ok_elim h
  refine ⟨update_row records now row, ?_,
    update_row_clinic_id records now row, update_row_clinic_name records now row,
    update_row_first_seen records now row⟩
  rw [hd]
  exact List.mem_append_left _ (List.mem_map_of_mem _ hr)

/-- Claim C1 (identity permanence): starting from any previous snapshot and
applying `update_id_map` any number of additional times, with any inputs,
years and build times, every record of the previous snapshot is still present
in the final snapshot with the same `clinic_id`, the same `clinic_name` and
the same `first_seen_at`; no record is ever dropped. -/
theorem claim_c1_identity_permanence
    (steps : List (List ClinicInput × Nat × String)) (prev final : List Row)
    (h : reconcile_many steps prev = .ok final) :
    ∀ row ∈ prev, ∃ row2 ∈ final,
      row2.clinic_id = row.clinic_id ∧ row2.clinic_name = row.clinic_name ∧
        row2.first_seen_at = row.first_seen_at := by
  induction steps generalizing prev with
  | nil =>
    simp only [reconcile_many] at h
    injection h with h
    subst h
    intro row hr
    exact ⟨row, hr, rfl, rfl, rfl⟩
  | cons step rest ih =>
    obtain ⟨ins, yr, now⟩ := step
    intro row hr
    cases hu : update_id_map ins yr prev now with
    | error e =>
      rw [reconcile_many, hu] at h
      exact Except.noConfusion h
    | ok res =>
      rw [reconcile_many, hu] at h
      obtain ⟨mid, hmid, e1, e2, e3⟩ := update_preserves_row hu row hr
      obtain ⟨fin, hfin, f1, f2, f3⟩ := ih res.data h mid hmid
      exact ⟨fin, hfin, f1.trans e1, f2.trans e2, f3.trans e3⟩

/-- Witness for C1 at a concrete two-step run: the clinic "A", minted in the
first build, keeps its id and `first_seen_at` through a second build in which
it is absent. -/
theorem claim_c1_identity_permanence_witness :
    reconcile_many [([⟨"B", "", "", "", ""⟩], 2026, "T2")]
        [⟨"SJ25-0001", "A", "ACTIVE", "T1", "T1", "", "", "", ""⟩] =
      .ok [⟨"SJ25-0001", "A", "INACTIVE", "T1", "T1", "", "", "", ""⟩,
        ⟨"SJ26-0001", "B", "ACTIVE", "T2", "T2", "", "", "", ""⟩] ∧
      ∃ row2 ∈ ([⟨"SJ25-0001", "A", "INACTIVE", "T1", "T1", "", "", "", ""⟩,
          ⟨"SJ26-0001", "B", "ACTIVE", "T2", "T2", "", "", "", ""⟩] : List Row),
        row2.clinic_id = ("SJ25-0001" : String) ∧ row2.clinic_name = ("A" : String) ∧
          row2.first_seen_at = ("T1" : String) :=
  ⟨by decide,
    claim_c1_identity_permanence [([⟨"B", "", "", "", ""⟩], 2026, "T2")]
      [⟨"SJ25-0001", "A", "ACTIVE", "T1", "T1", "", "", "", ""⟩]
      [⟨"SJ25-0001", "A", "INACTIVE", "T1", "T1", "", "", "", ""⟩,
        ⟨"SJ26-0001", "B", "ACTIVE", "T2", "T2", "", "", "", ""⟩]
      (by decide)
      ⟨"SJ25-0001", "A", "ACTIVE", "T1", "T1", "", "", "", ""⟩ (by decide)⟩

/-- Claim C2 (status determinism): in the snapshot produced by `update_id_map`,
a record's status is `"ACTIVE"` exactly when its `clinic_name` is the name of
some input record of this build, and every status is either `"ACTIVE"` or
`"INACTIVE"`. -/
theorem claim_c2_status_determinism {records : List ClinicInput} {year : Nat}
    {existing : List Row} {now : String} {res : IdMapResult}
    (h : update_id_map records year existing now = .ok res) :
    ∀ row ∈ res.data,
      (row.status = "ACTIVE" ↔ row.clinic_name ∈ records.map (·.name)) ∧
        (row.status = "ACTIVE" ∨ row.status = "INACTIVE") := by
  intro row hr
  obtain ⟨hd, _⟩ := update_id_map_ok_elim h
  rw [hd] at hr
  rcases List.mem_append.mp hr with hup | hmint
  · obtain ⟨r0, hr0, rfl⟩ := List.mem_map.mp hup
    have hkey := @find?_name_isSome records r0.clinic_name
    cases hf : records.find? (fun r => r.name == r0.clinic_name) with
    | some r =>
      have hmem : r0.clinic_name ∈ records.map (·.name) := hkey.mp (by simp [hf])
      have hrow : (update_row records now r0).status = "ACTIVE" := by
        unfold update_row
        rw [hf]
      have hname : (update_row records now r0).clinic_name = r0.clinic_name :=
        update_row_clinic_name records now r0
      rw [hrow, hname]
      exact ⟨iff_of_true rfl hmem, Or.inl rfl⟩
    | none =>
      have hmem : r0.clinic_name ∉ records.map (·.name) := by
        intro hm
        have := hkey.mpr hm
        simp [hf] at this
      have hrow : (update_row records now r0).status = "INACTIVE" := by
        unfold update_row
        rw [hf]
      have hname : (update_row records now r0).clinic_name = r0.clinic_name :=
        update_row_clinic_name records now r0
      rw [hrow, hname]
      exact ⟨iff_of_false (by decide) hmem, Or.inr rfl⟩
  · obtain ⟨hstat, hname, _⟩ := mem_mint_new_rows hmint
    have hmem : row.clinic_name ∈ records.map (·.name) := (mem_new_names.mp hname).1
    exact ⟨iff_of_true hstat hmem, Or.inl hstat⟩

/-- Witness for C2: a build over one stored row ("A", absent from the input)
and one input ("B", new). -/
theorem claim_c2_status_determinism_witness :
    update_id_map [⟨"B", "", "", "", ""⟩] 2025
        [⟨"SJ25-0001", "A", "ACTIVE", "T1", "T1", "", "", "", ""⟩] "T2" =
      .ok ⟨[⟨"SJ25-0001", "A", "INACTIVE", "T1", "T1", "", "", "", ""⟩,
        ⟨"SJ25-0002", "B", "ACTIVE", "T2", "T2", "", "", "", ""⟩], ["SJ25-0002"]⟩ ∧
      ∀ row ∈ ([⟨"SJ25-0001", "A", "INACTIVE", "T1", "T1", "", "", "", ""⟩,
          ⟨"SJ25-0002", "B", "ACTIVE", "T2", "T2", "", "", "", ""⟩] : List Row),
        (row.status = "ACTIVE" ↔
            row.clinic_name ∈ ([⟨"B", "", "", "", ""⟩] : List ClinicInput).map (·.name)) ∧
          (row.status = "ACTIVE" ∨ row.status = "INACTIVE") :=
  ⟨by decide,
    @claim_c2_status_determinism [⟨"B", "", "", "", ""⟩] 2025
      [⟨"SJ25-0001", "A", "ACTIVE", "T1", "T1", "", "", "", ""⟩] "T2"
      ⟨[⟨"SJ25-0001", "A", "INACTIVE", "T1", "T1", "", "", "", ""⟩,
        ⟨"SJ25-0002", "B", "ACTIVE", "T2", "T2", "", "", "", ""⟩], ["SJ25-0002"]⟩
      (by decide)⟩

/-- Equality of rows on every field except `status` (the store's previous
status column). -/
def row_eq_except_status (r s : Row) : Prop :=
  r.clinic_id = s.clinic_id ∧ r.clinic_name = s.clinic_name ∧
    r.first_seen_at = s.first_seen_at ∧ r.last_seen_at = s.last_seen_at ∧
    r.address = s.address ∧ r.phone = s.phone ∧ r.director = s.director ∧
    r.homepage = s.homepage

instance (r s : Row) : Decidable (row_eq_except_status r s) := by
  unfold row_eq_except_status
  infer_instance

theorem update_row_congr (records : List ClinicInput) (now : String) {r s : Row}
    (h : row_eq_except_status r s) :
    update_row records now r = update_row records now s := by
  obtain ⟨c1, c2, c3, c4, c5, c6, c7, c8⟩ := h
  cases r
  cases s
  simp only at c1 c2 c3 c4 c5 c6 c7 c8
  subst c1; subst c2; subst c3; subst c4; subst c5; subst c6; subst c7; subst c8
  unfold update_row
  cases records.find? _ <;> rfl

/-- Claim C10 (previous status is write-only): two previous snapshots that agree
on every field except the `status` column produce identical `update_id_map`
results for the same inputs, year and build time. -/
theorem forall2_map_eq {α β : Type} {R : α → α → Prop} {f : α → β}
    (hf : ∀ a b, R a b → f a = f b) :
    ∀ {l1 l2 : List α}, List.Forall₂ R l1 l2 → l1.map f = l2.map f := by
  intro l1 l2 h
  induction h with
  | nil => rfl
  | cons hh _ ih => simp only [List.map_cons, ih, hf _ _ hh]

theorem claim_c10_status_write_only (records : List ClinicInput) (year : Nat)
    (now : String) {e1 e2 : List Row}
    (h : List.Forall₂ row_eq_except_status e1 e2) :
    update_id_map records year e1 now = update_id_map records year e2 now := by
  have hn : e1.map (·.clinic_name) = e2.map (·.clinic_name) :=
    forall2_map_eq (fun a b hb => hb.2.1) h
  have hi : e1.map (·.clinic_id) = e2.map (·.clinic_id) :=
    forall2_map_eq (fun a b hb => hb.1) h
  have hu : e1.map (update_row records now) = e2.map (update_row records now) :=
    forall2_map_eq (fun a b hb => update_row_congr records now hb) h
  have hnn : new_names_of records e1 = new_names_of records e2 := by
    unfold new_names_of
    rw [hn]
  unfold update_id_map
  simp only [hn, hi, hu, hnn]

/-- Witness for C10: flipping a stored status from ACTIVE to a different
value does not change the reconciliation result. -/
theorem claim_c10_status_write_only_witness :
    row_eq_except_status ⟨"SJ25-0001", "A", "ACTIVE", "T1", "T1", "", "", "", ""⟩
        ⟨"SJ25-0001", "A", "inactive", "T1", "T1", "", "", "", ""⟩ ∧
      update_id_map [⟨"A", "addr", "", "", ""⟩] 2025
          [⟨"SJ25-0001", "A", "ACTIVE", "T1", "T1", "", "", "", ""⟩] "T2" =
        update_id_map [⟨"A", "addr", "", "", ""⟩] 2025
          [⟨"SJ25-0001", "A", "inactive", "T1", "T1", "", "", "", ""⟩] "T2" :=
  ⟨by decide,
    claim_c10_status_write_only _ 2025 "T2"
      (List.Forall₂.cons (by decide) List.Forall₂.nil)⟩

theorem merge_field_eq (a b : String) :
    merge_field a b = if a = "" then b else a := by
  unfold merge_field
  by_cases h : a = "" <;> simp [h]

/-- Claim C5 (sticky metadata and frame): for the `i`-th record of the previous
snapshot, the `i`-th record of the next snapshot keeps `clinic_id` and
`first_seen_at`; when the clinic's name is the name of an input record, each
metadata field takes the input value unless that value is empty, in which
case the stored value is kept; when the name is absent from the input,
`last_seen_at` and all four metadata fields are unchanged. -/
theorem claim_c5_sticky_metadata {records : List ClinicInput} {year : Nat}
    {existing : List Row} {now : String} {res : IdMapResult}
    (h : update_id_map records year existing now = .ok res) :
    ∀ i (hi : i < existing.length), ∃ hj : i < res.data.length,
      (res.data.get ⟨i, hj⟩).clinic_id = (existing.get ⟨i, hi⟩).clinic_id ∧
      (res.data.get ⟨i, hj⟩).first_seen_at = (existing.get ⟨i, hi⟩).first_seen_at ∧
      (∀ r ∈ records, r.name = (existing.get ⟨i, hi⟩).clinic_name →
        (res.data.get ⟨i, hj⟩).address =
            (if r.address = "" then (existing.get ⟨i, hi⟩).address else r.address) ∧
          (res.data.get ⟨i, hj⟩).phone =
            (if r.phone = "" then (existing.get ⟨i, hi⟩).phone else r.phone) ∧
          (res.data.get ⟨i, hj⟩).director =
            (if r.director = "" then (existing.get ⟨i, hi⟩).director else r.director) ∧
          (res.data.get ⟨i, hj⟩).homepage =
            (if r.homepage = "" then (existing.get ⟨i, hi⟩).homepage else r.homepage)) ∧
      ((existing.get ⟨i, hi⟩).clinic_name ∉ records.map (·.name) →
        (res.data.get ⟨i, hj⟩).last_seen_at = (existing.get ⟨i, hi⟩).last_seen_at ∧
          (res.data.get ⟨i, hj⟩).address = (existing.get ⟨i, hi⟩).address ∧
          (res.data.get ⟨i, hj⟩).phone = (existing.get ⟨i, hi⟩).phone ∧
          (res.data.get ⟨i, hj⟩).director = (existing.get ⟨i, hi⟩).director ∧
          (res.data.get ⟨i, hj⟩).homepage = (existing.get ⟨i, hi⟩).homepage) := by
  obtain ⟨hn1, _⟩ := update_id_map_ok_nodup h
  obtain ⟨hd, _⟩ := update_id_map_ok_elim h
  intro i hi
  have hj : i < res.data.length := by
    rw [hd]
    rw [List.length_append, List.length_map]
    omega
  have hget : res.data.get ⟨i, hj⟩ = update_row records now (existing.get ⟨i, hi⟩) := by
    have hi' : i < (existing.map (update_row records now)).length := by
      rw [List.length_map]; exact hi
    have h1 := List.get_of_eq hd ⟨i, hj⟩
    rw [h1, List.get_eq_getElem]
    rw [List.getElem_append_left hi']
    simp
  refine ⟨hj, ?_, ?_, ?_, ?_⟩
  · rw [hget]; exact update_row_clinic_id records now _
  · rw [hget]; exact update_row_first_seen records now _
  · intro r hr hname
    have hf := find?_name_of_mem hn1 hr hname
    rw [hget]
    unfold update_row
    rw [hf]
    refine ⟨?_, ?_, ?_, ?_⟩ <;> exact merge_field_eq _ _
  · intro hnot
    have hf := find?_name_of_not_mem hnot
    rw [hget]
    unfold update_row
    rw [hf]
    exact ⟨rfl, rfl, rfl, rfl, rfl⟩

/-- Witness for C5: clinic "A" keeps its stored phone against an empty
incoming phone while its address is overwritten; clinic "B" (absent from the
input) is fully unchanged apart from status. -/
theorem claim_c5_sticky_metadata_witness :
    update_id_map [⟨"A", "NEWADDR", "", "", ""⟩] 2025
        [⟨"SJ25-0001", "A", "ACTIVE", "T1", "T1", "OLDADDR", "P0", "", ""⟩] "T2" =
      .ok ⟨[⟨"SJ25-0001", "A", "ACTIVE", "T1", "T2", "NEWADDR", "P0", "", ""⟩], []⟩ ∧
    ∀ i (hi : i < ([⟨"SJ25-0001", "A", "ACTIVE", "T1", "T1", "OLDADDR", "P0", "", ""⟩] :
        List Row).length),
      ∃ hj : i < ([⟨"SJ25-0001", "A", "ACTIVE", "T1", "T2", "NEWADDR", "P0", "", ""⟩] :
          List Row).length,
      (([⟨"SJ25-0001", "A", "ACTIVE", "T1", "T2", "NEWADDR", "P0", "", ""⟩] :
          List Row).get ⟨i, hj⟩).clinic_id =
        (([⟨"SJ25-0001", "A", "ACTIVE", "T1", "T1", "OLDADDR", "P0", "", ""⟩] :
          List Row).get ⟨i, hi⟩).clinic_id ∧
      (([⟨"SJ25-0001", "A", "ACTIVE", "T1", "T2", "NEWADDR", "P0", "", ""⟩] :
          List Row).get ⟨i, hj⟩).first_seen_at =
        (([⟨"SJ25-0001", "A", "ACTIVE", "T1", "T1", "OLDADDR", "P0", "", ""⟩] :
          List Row).get ⟨i, hi⟩).first_seen_at ∧
      (∀ r ∈ ([⟨"A", "NEWADDR", "", "", ""⟩] : List ClinicInput),
        r.name = (([⟨"SJ25-0001", "A", "ACTIVE", "T1", "T1", "OLDADDR", "P0", "", ""⟩] :
            List Row).get ⟨i, hi⟩).clinic_name →
        (([⟨"SJ25-0001", "A", "ACTIVE", "T1", "T2", "NEWADDR", "P0", "", ""⟩] :
            List Row).get ⟨i, hj⟩).address =
            (if r.address = "" then
              (([⟨"SJ25-0001", "A", "ACTIVE", "T1", "T1", "OLDADDR", "P0", "", ""⟩] :
                List Row).get ⟨i, hi⟩).address
            else r.address) ∧
          (([⟨"SJ25-0001", "A", "ACTIVE", "T1", "T2", "NEWADDR", "P0", "", ""⟩] :
              List Row).get ⟨i, hj⟩).phone =
            (if r.phone = "" then
              (([⟨"SJ25-0001", "A", "ACTIVE", "T1", "T1", "OLDADDR", "P0", "", ""⟩] :
                List Row).get ⟨i, hi⟩).phone
            else r.phone) ∧
          (([⟨"SJ25-0001", "A", "ACTIVE", "T1", "T2", "NEWADDR", "P0", "", ""⟩] :
              List Row).get ⟨i, hj⟩).director =
            (if r.director = "" then
              (([⟨"SJ25-0001", "A", "ACTIVE", "T1", "T1", "OLDADDR", "P0", "", ""⟩] :
                List Row).get ⟨i, hi⟩).director
            else r.director) ∧
          (([⟨"SJ25-0001", "A", "ACTIVE", "T1", "T2", "NEWADDR", "P0", "", ""⟩] :
              List Row).get ⟨i, hj⟩).homepage =
            (if r.homepage = "" then
              (([⟨"SJ25-0001", "A", "ACTIVE", "T1", "T1", "OLDADDR", "P0", "", ""⟩] :
                List Row).get ⟨i, hi⟩).homepage
            else r.homepage)) ∧
      ((([⟨"SJ25-0001", "A", "ACTIVE", "T1", "T1", "OLDADDR", "P0", "", ""⟩] :
            List Row).get ⟨i, hi⟩).clinic_name ∉
          ([⟨"A", "NEWADDR", "", "", ""⟩] : List ClinicInput).map (·.name) →
        (([⟨"SJ25-0001", "A", "ACTIVE", "T1", "T2", "NEWADDR", "P0", "", ""⟩] :
            List Row).get ⟨i, hj⟩).last_seen_at =
          (([⟨"SJ25-0001", "A", "ACTIVE", "T1", "T1", "OLDADDR", "P0", "", ""⟩] :
            List Row).get ⟨i, hi⟩).last_seen_at ∧
        (([⟨"SJ25-0001", "A", "ACTIVE", "T1", "T2", "NEWADDR", "P0", "", ""⟩] :
            List Row).get ⟨i, hj⟩).address =
          (([⟨"SJ25-0001", "A", "ACTIVE", "T1", "T1", "OLDADDR", "P0", "", ""⟩] :
            List Row).get ⟨i, hi⟩).address ∧
        (([⟨"SJ25-0001", "A", "ACTIVE", "T1", "T2", "NEWADDR", "P0", "", ""⟩] :
            List Row).get ⟨i, hj⟩).phone =
          (([⟨"SJ25-0001", "A", "ACTIVE", "T1", "T1", "OLDADDR", "P0", "", ""⟩] :
            List Row).get ⟨i, hi⟩).phone ∧
        (([⟨"SJ25-0001", "A", "ACTIVE", "T1", "T2", "NEWADDR", "P0", "", ""⟩] :
            List Row).get ⟨i, hj⟩).director =
          (([⟨"SJ25-0001", "A", "ACTIVE", "T1", "T1", "OLDADDR", "P0", "", ""⟩] :
            List Row).get ⟨i, hi⟩).director ∧
        (([⟨"SJ25-0001", "A", "ACTIVE", "T1", "T2", "NEWADDR", "P0", "", ""⟩] :
            List Row).get ⟨i, hj⟩).homepage =
          (([⟨"SJ25-0001", "A", "ACTIVE", "T1", "T1", "OLDADDR", "P0", "", ""⟩] :
            List Row).get ⟨i, hi⟩).homepage) :=
  ⟨by decide,
    @claim_c5_sticky_metadata [⟨"A", "NEWADDR", "", "", ""⟩] 2025
      [⟨"SJ25-0001", "A", "ACTIVE", "T1", "T1", "OLDADDR", "P0", "", ""⟩] "T2"
      ⟨[⟨"SJ25-0001", "A", "ACTIVE", "T1", "T2", "NEWADDR", "P0", "", ""⟩], []⟩
      (by decide)⟩

/-- Counterexample to C3 as stated: `update_id_map` checks the previous
snapshot only for duplicate names, not duplicate ids, so a previous snapshot
with two distinct names sharing the id `"X"` passes validation and produces a
next snapshot in which two records share a `clinic_id`. -/
theorem claim_c3_counterexample :
    update_id_map [] 2025
        [⟨"X", "A", "ACTIVE", "t0", "t0", "", "", "", ""⟩,
          ⟨"X", "B", "ACTIVE", "t0", "t0", "", "", "", ""⟩] "T1" =
      .ok ⟨[⟨"X", "A", "INACTIVE", "t0", "t0", "", "", "", ""⟩,
        ⟨"X", "B", "INACTIVE", "t0", "t0", "", "", "", ""⟩], []⟩ ∧
      ¬ (([⟨"X", "A", "INACTIVE", "t0", "t0", "", "", "", ""⟩,
          ⟨"X", "B", "INACTIVE", "t0", "t0", "", "", "", ""⟩] : List Row).map
            (·.clinic_id)).Nodup := by
  decide

/-- Claim C3, amended (uniqueness): when `update_id_map` returns — so the input
names and the previous snapshot's names are duplicate-free — and the previous
snapshot's `clinic_id`s are additionally duplicate-free, the next snapshot has
no two records sharing a `clinic_name` and no two sharing a `clinic_id`. -/
theorem claim_c3_uniqueness {records : List ClinicInput} {year : Nat}
    {existing : List Row} {now : String} {res : IdMapResult}
    (h : update_id_map records year existing now = .ok res)
    (hids : (existing.map (·.clinic_id)).Nodup) :
    (res.data.map (·.clinic_name)).Nodup ∧ (res.data.map (·.clinic_id)).Nodup := by
  obtain ⟨hn1, hn2⟩ := update_id_map_ok_nodup h
  obtain ⟨hd, _⟩ := update_id_map_ok_elim h
  constructor
  · rw [hd, List.map_append]
    have e1 : (existing.map (update_row records now)).map (·.clinic_name) =
        existing.map (·.clinic_name) := by
      rw [List.map_map]
      apply List.map_congr_left
      intro r _
      exact update_row_clinic_name records now r
    rw [e1, mint_new_rows_name]
    rw [List.nodup_append]
    refine ⟨hn2, new_names_nodup records existing, ?_⟩
    intro a ha hb
    exact (mem_new_names.mp hb).2 ha
  · rw [hd, List.map_append]
    have e2 : (existing.map (update_row records now)).map (·.clinic_id) =
        existing.map (·.clinic_id) := by
      rw [List.map_map]
      apply List.map_congr_left
      intro r _
      exact update_row_clinic_id records now r
    rw [e2, mint_new_rows_id, mint_new_ids_eq]
    rw [List.nodup_append]
    refine ⟨hids, ?_, ?_⟩
    · refine List.Nodup.map ?_ (List.nodup_range _)
      intro a b hab
      have := congrArg (suffixNum (id_prefix_of year)) hab
      rw [suffixNum_mkId, suffixNum_mkId] at this
      have := Option.some_injective _ this
      omega
    · intro a ha hb
      obtain ⟨i, _, rfl⟩ := List.mem_map.mp hb
      have hs := suffixNum_mkId year
        (max_existing_number (existing.map (·.clinic_id)) (id_prefix_of year) + i + 1)
      have hle := suffix_le_max_existing ha hs
      omega

/-- Witness for the amended C3. -/
theorem claim_c3_uniqueness_witness :
    update_id_map [⟨"C", "", "", "", ""⟩] 2025
        [⟨"SJ25-0001", "A", "ACTIVE", "T1", "T1", "", "", "", ""⟩] "T2" =
      .ok ⟨[⟨"SJ25-0001", "A", "INACTIVE", "T1", "T1", "", "", "", ""⟩,
        ⟨"SJ25-0002", "C", "ACTIVE", "T2", "T2", "", "", "", ""⟩], ["SJ25-0002"]⟩ ∧
    (([⟨"SJ25-0001", "A", "ACTIVE", "T1", "T1", "", "", "", ""⟩] : List Row).map
        (·.clinic_id)).Nodup ∧
    ((([⟨"SJ25-0001", "A", "INACTIVE", "T1", "T1", "", "", "", ""⟩,
        ⟨"SJ25-0002", "C", "ACTIVE", "T2", "T2", "", "", "", ""⟩] : List Row).map
          (·.clinic_name)).Nodup ∧
      (([⟨"SJ25-0001", "A", "INACTIVE", "T1", "T1", "", "", "", ""⟩,
        ⟨"SJ25-0002", "C", "ACTIVE", "T2", "T2", "", "", "", ""⟩] : List Row).map
          (·.clinic_id)).Nodup) :=
  ⟨by decide, by decide,
    @claim_c3_uniqueness [⟨"C", "", "", "", ""⟩] 2025
      [⟨"SJ25-0001", "A", "ACTIVE", "T1", "T1", "", "", "", ""⟩] "T2"
      ⟨[⟨"SJ25-0001", "A", "INACTIVE", "T1", "T1", "", "", "", ""⟩,
        ⟨"SJ25-0002", "C", "ACTIVE", "T2", "T2", "", "", "", ""⟩], ["SJ25-0002"]⟩
      (by decide) (by decide)⟩

/-- Claim C4 (monotonic minting): the names new to the store are processed in
strictly ascending lexicographic order; the minted ids are, in that order,
`prefix ++ zero-padded (m + i + 1)` where `m` is the maximum existing numeric
suffix for the literal prefix (`0` when none matches); hence the numeric
suffixes parsed back from the minted ids are `m + i + 1`: strictly increasing,
each one more than the running maximum, and all strictly greater than `m`. -/
theorem claim_c4_monotonic_minting {records : List ClinicInput} {year : Nat}
    {existing : List Row} {now : String} {res : IdMapResult}
    (h : update_id_map records year existing now = .ok res) :
    List.Pairwise (fun a b => strLe a b ∧ a ≠ b) (new_names_of records existing) ∧
    res.new_ids.length = (new_names_of records existing).length ∧
    (∀ i (hi : i < res.new_ids.length),
      res.new_ids.get ⟨i, hi⟩ =
        mkId (id_prefix_of year)
          (max_existing_number (existing.map (·.clinic_id)) (id_prefix_of year) + i + 1) ∧
      suffixNum (id_prefix_of year) (res.new_ids.get ⟨i, hi⟩) =
        some (max_existing_number (existing.map (·.clinic_id)) (id_prefix_of year) +
          i + 1)) ∧
    (∀ i j (hi : i < res.new_ids.length) (hj : j < res.new_ids.length) (a b : Nat),
      suffixNum (id_prefix_of year) (res.new_ids.get ⟨i, hi⟩) = some a →
      suffixNum (id_prefix_of year) (res.new_ids.get ⟨j, hj⟩) = some b →
      (i < j → a < b) ∧
        max_existing_number (existing.map (·.clinic_id)) (id_prefix_of year) < a) := by
  obtain ⟨_, hni⟩ := update_id_map_ok_elim h
  have hpair : List.Pairwise (fun a b => strLe a b ∧ a ≠ b)
      (new_names_of records existing) := by
    have hsorted : List.Pairwise strLe (new_names_of records existing) :=
      pySorted_sorted _
    have hne : List.Pairwise (fun a b : String => a ≠ b)
        (new_names_of records existing) := new_names_nodup records existing
    exact hsorted.and hne
  have hlen : res.new_ids.length = (new_names_of records existing).length := by
    rw [hni, mint_new_len]
  have hget : ∀ i (hi : i < res.new_ids.length),
      res.new_ids.get ⟨i, hi⟩ =
        mkId (id_prefix_of year)
          (max_existing_number (existing.map (·.clinic_id)) (id_prefix_of year) +
            i + 1) := by
    intro i hi
    have h1 := List.get_of_eq hni ⟨i, hi⟩
    rw [h1, mint_new_ids_get]
  refine ⟨hpair, hlen, ?_, ?_⟩
  · intro i hi
    refine ⟨hget i hi, ?_⟩
    rw [hget i hi]
    exact suffixNum_mkId year _
  · intro i j hi hj a b hsa hsb
    rw [hget i hi, suffixNum_mkId] at hsa
    rw [hget j hj, suffixNum_mkId] at hsb
    have ha := Option.some_injective _ hsa
    have hb := Option.some_injective _ hsb
    constructor
    · intro hij; omega
    · omega

/-- Witness for C4: two new names are minted after an existing id with
suffix 7. -/
theorem claim_c4_monotonic_minting_witness :
    update_id_map [⟨"B", "", "", "", ""⟩, ⟨"A", "", "", "", ""⟩] 2025
        [⟨"SJ25-0007", "C", "ACTIVE", "T1", "T1", "", "", "", ""⟩] "T2" =
      .ok ⟨[⟨"SJ25-0007", "C", "INACTIVE", "T1", "T1", "", "", "", ""⟩,
        ⟨"SJ25-0008", "A", "ACTIVE", "T2", "T2", "", "", "", ""⟩,
        ⟨"SJ25-0009", "B", "ACTIVE", "T2", "T2", "", "", "", ""⟩],
        ["SJ25-0008", "SJ25-0009"]⟩ ∧
    (List.Pairwise (fun a b => strLe a b ∧ a ≠ b)
        (new_names_of [⟨"B", "", "", "", ""⟩, ⟨"A", "", "", "", ""⟩]
          [⟨"SJ25-0007", "C", "ACTIVE", "T1", "T1", "", "", "", ""⟩]) ∧
      (["SJ25-0008", "SJ25-0009"] : List String).length =
        (new_names_of [⟨"B", "", "", "", ""⟩, ⟨"A", "", "", "", ""⟩]
          [⟨"SJ25-0007", "C", "ACTIVE", "T1", "T1", "", "", "", ""⟩]).length ∧
      (∀ i (hi : i < (["SJ25-0008", "SJ25-0009"] : List String).length),
        (["SJ25-0008", "SJ25-0009"] : List String).get ⟨i, hi⟩ =
          mkId (id_prefix_of 2025)
            (max_existing_number
              (([⟨"SJ25-0007", "C", "ACTIVE", "T1", "T1", "", "", "", ""⟩] :
                List Row).map (·.clinic_id)) (id_prefix_of 2025) + i + 1) ∧
        suffixNum (id_prefix_of 2025)
            ((["SJ25-0008", "SJ25-0009"] : List String).get ⟨i, hi⟩) =
          some (max_existing_number
            (([⟨"SJ25-0007", "C", "ACTIVE", "T1", "T1", "", "", "", ""⟩] :
              List Row).map (·.clinic_id)) (id_prefix_of 2025) + i + 1)) ∧
      (∀ i j (hi : i < (["SJ25-0008", "SJ25-0009"] : List String).length)
          (hj : j < (["SJ25-0008", "SJ25-0009"] : List String).length) (a b : Nat),
        suffixNum (id_prefix_of 2025)
            ((["SJ25-0008", "SJ25-0009"] : List String).get ⟨i, hi⟩) = some a →
        suffixNum (id_prefix_of 2025)
            ((["SJ25-0008", "SJ25-0009"] : List String).get ⟨j, hj⟩) = some b →
        (i < j → a < b) ∧
          max_existing_number
            (([⟨"SJ25-0007", "C", "ACTIVE", "T1", "T1", "", "", "", ""⟩] :
              List Row).map (·.clinic_id)) (id_prefix_of 2025) < a)) :=
  ⟨by decide,
    @claim_c4_monotonic_minting [⟨"B", "", "", "", ""⟩, ⟨"A", "", "", "", ""⟩] 2025
      [⟨"SJ25-0007", "C", "ACTIVE", "T1", "T1", "", "", "", ""⟩] "T2"
      ⟨[⟨"SJ25-0007", "C", "INACTIVE", "T1", "T1", "", "", "", ""⟩,
        ⟨"SJ25-0008", "A", "ACTIVE", "T2", "T2", "", "", "", ""⟩,
        ⟨"SJ25-0009", "B", "ACTIVE", "T2", "T2", "", "", "", ""⟩],
        ["SJ25-0008", "SJ25-0009"]⟩
      (by decide)⟩

/-! ## Lemmas about `_to_lookup` and `build_changes` -/

theorem mem_keys_dict_insert {α : Type} {l : List (String × α)} {k k' : String}
    {v : α} :
    k' ∈ (dict_insert l k v).map (·.1) ↔ k' = k ∨ k' ∈ l.map (·.1) := by
  induction l with
  | nil => simp [dict_insert]
  | cons kv rest ih =>
    obtain ⟨a, b⟩ := kv
    by_cases ha : a = k
    · subst ha
      simp [dict_insert]
    · simp only [dict_insert, if_neg ha, List.map_cons, List.mem_cons, ih]
      tauto

theorem mem_keys_lookup_step {acc : List (String × (String × String))} {row : Row}
    {k : String} :
    k ∈ (lookup_step acc row).map (·.1) ↔
      k ∈ acc.map (·.1) ∨ (k ≠ "" ∧ pyStrip row.clinic_id = k) := by
  unfold lookup_step
  by_cases hc : pyStrip row.clinic_id = ""
  · rw [if_pos hc]
    constructor
    · exact Or.inl
    · rintro (h | ⟨hk, hs⟩)
      · exact h
      · exact absurd (hs.symm.trans hc) hk
  · rw [if_neg hc]
    rw [mem_keys_dict_insert]
    constructor
    · rintro (rfl | h)
      · exact Or.inr ⟨hc, rfl⟩
      · exact Or.inl h
    · rintro (h | ⟨_, rfl⟩)
      · exact Or.inr h
      · exact Or.inl rfl

theorem mem_keys_foldl_lookup_step :
    ∀ (df : List Row) (acc : List (String × (String × String))) (k : String),
      k ∈ (df.foldl lookup_step acc).map (·.1) ↔
        k ∈ acc.map (·.1) ∨ (k ≠ "" ∧ ∃ row ∈ df, pyStrip row.clinic_id = k) := by
  intro df
  induction df with
  | nil => simp
  | cons row rest ih =>
    intro acc k
    rw [List.foldl_cons, ih, mem_keys_lookup_step]
    constructor
    · rintro ((h | ⟨hk, hs⟩) | ⟨hk, r, hr, hs⟩)
      · exact Or.inl h
      · exact Or.inr ⟨hk, row, List.mem_cons_self _ _, hs⟩
      · exact Or.inr ⟨hk, r, List.mem_cons_of_mem _ hr, hs⟩
    · rintro (h | ⟨hk, r, hr, hs⟩)
      · exact Or.inl (Or.inl h)
      · rcases List.mem_cons.mp hr with rfl | hrt
        · exact Or.inl (Or.inr ⟨hk, hs⟩)
        · exact Or.inr ⟨hk, r, hrt, hs⟩

theorem mem_keys_to_lookup {df : List Row} {k : String} :
    k ∈ (to_lookup df).map (·.1) ↔
      k ≠ "" ∧ ∃ row ∈ df, pyStrip row.clinic_id = k := by
  unfold to_lookup
  rw [mem_keys_foldl_lookup_step]
  simp

theorem lookup_get_isSome {α : Type} {l : List (String × α)} {k : String} :
    (lookup_get l k).isSome = true ↔ k ∈ l.map (·.1) := by
  unfold lookup_get
  constructor
  · intro h
    cases hf : l.find? (fun kv => kv.1 == k) with
    | none => simp [hf] at h
    | some kv =>
      have hb := List.find?_some hf
      have hmem := List.mem_of_find?_eq_some hf
      exact List.mem_map.mpr ⟨kv, hmem, by simpa using hb⟩
  · intro h
    obtain ⟨kv, hkv, rfl⟩ := List.mem_map.mp h
    have hs : (l.find? (fun x => x.1 == kv.1)).isSome = true := by
      rw [List.find?_isSome]
      exact ⟨kv, hkv, by simp⟩
    cases hf : l.find? (fun x => x.1 == kv.1) with
    | none => rw [hf] at hs; cases hs
    | some kv' => rfl

/-- Claim C6 (change classification): an id is represented in the output of
`build_changes` exactly when some row of the next snapshot carries it (ids are
the stripped `clinic_id` cells; an empty id is not an id); the record emitted
for an entry of the next lookup is classified `NEW` when the previous lookup
has no entry for the id, `DEACTIVATED` on ACTIVE→INACTIVE, `REACTIVATED` on
INACTIVE→ACTIVE, and `UNCHANGED` for every other status combination; and the
previous lookup has no entry exactly when no row of the previous snapshot
carries the id. -/
theorem claim_c6_change_classification (dfPrev dfNext : List Row) (cid : String) :
    ((∃ c ∈ build_changes dfPrev dfNext, c.clinic_id = cid) ↔
      cid ≠ "" ∧ ∃ row ∈ dfNext, pyStrip row.clinic_id = cid) ∧
    (∀ nm st, (cid, (nm, st)) ∈ to_lookup dfNext →
      ∃ c ∈ build_changes dfPrev dfNext, c.clinic_id = cid ∧ c.clinic_name = nm ∧
        c.change_type =
          (match lookup_get (to_lookup dfPrev) cid with
           | none => "NEW"
           | some (_, ps) =>
             if ps = "ACTIVE" ∧ st = "INACTIVE" then "DEACTIVATED"
             else if ps = "INACTIVE" ∧ st = "ACTIVE" then "REACTIVATED"
             else "UNCHANGED")) ∧
    (lookup_get (to_lookup dfPrev) cid = none ↔
      ¬ (cid ≠ "" ∧ ∃ row ∈ dfPrev, pyStrip row.clinic_id = cid)) := by
  refine ⟨?_, ?_, ?_⟩
  · rw [← mem_keys_to_lookup]
    unfold build_changes
    constructor
    · rintro ⟨c, hc, rfl⟩
      obtain ⟨kv, hkv, rfl⟩ := List.mem_map.mp hc
      exact List.mem_map.mpr ⟨kv, hkv, rfl⟩
    · intro h
      obtain ⟨kv, hkv, rfl⟩ := List.mem_map.mp h
      exact ⟨_, List.mem_map.mpr ⟨kv, hkv, rfl⟩, rfl⟩
  · intro nm st hmem
    refine ⟨_, List.mem_map.mpr ⟨(cid, (nm, st)), hmem, rfl⟩, rfl, rfl, ?_⟩
    show classify_change (lookup_get (to_lookup dfPrev) cid) st = _
    unfold classify_change
    cases lookup_get (to_lookup dfPrev) cid with
    | none => rfl
    | some kv => rfl
  · rw [← mem_keys_to_lookup]
    constructor
    · intro h hmem
      have := lookup_get_isSome.mpr hmem
      rw [h] at this
      cases this
    · intro h
      cases ho : lookup_get (to_lookup dfPrev) cid with
      | none => rfl
      | some v =>
        exact absurd (lookup_get_isSome.mp (by rw [ho]; rfl)) h

/-- Witness for C6: an ACTIVE→INACTIVE transition for a concrete id. -/
theorem claim_c6_change_classification_witness :
    (("SJ25-0001", (("A" : String), ("INACTIVE" : String))) ∈
        to_lookup [⟨"SJ25-0001", "A", "INACTIVE", "t0", "t0", "", "", "", ""⟩]) ∧
    ∃ c ∈ build_changes [⟨"SJ25-0001", "A", "ACTIVE", "t0", "t0", "", "", "", ""⟩]
        [⟨"SJ25-0001", "A", "INACTIVE", "t0", "t0", "", "", "", ""⟩],
      c.clinic_id = "SJ25-0001" ∧ c.clinic_name = "A" ∧
        c.change_type =
          (match lookup_get (to_lookup
              [⟨"SJ25-0001", "A", "ACTIVE", "t0", "t0", "", "", "", ""⟩])
              "SJ25-0001" with
           | none => "NEW"
           | some (_, ps) =>
             if ps = "ACTIVE" ∧ ("INACTIVE" : String) = "INACTIVE" then "DEACTIVATED"
             else if ps = "INACTIVE" ∧ ("INACTIVE" : String) = "ACTIVE" then
               "REACTIVATED"
             else "UNCHANGED") :=
  ⟨by decide,
    (claim_c6_change_classification
      [⟨"SJ25-0001", "A", "ACTIVE", "t0", "t0", "", "", "", ""⟩]
      [⟨"SJ25-0001", "A", "INACTIVE", "t0", "t0", "", "", "", ""⟩] "SJ25-0001").2.1
      "A" "INACTIVE" (by decide)⟩

/-- Counterexample to C7 as stated: `_to_lookup` strips whitespace but
compares statuses case-sensitively, so storing `"active"` instead of
`"ACTIVE"` in the previous snapshot turns a `DEACTIVATED` classification into
`UNCHANGED`. -/
theorem claim_c7_counterexample :
    (build_changes
        [⟨"SJ25-0001", "A", "active", "t0", "t0", "", "", "", ""⟩]
        [⟨"SJ25-0001", "A", "INACTIVE", "t0", "t0", "", "", "", ""⟩]).map
        (·.change_type) = ["UNCHANGED"] ∧
    (build_changes
        [⟨"SJ25-0001", "A", "ACTIVE", "t0", "t0", "", "", "", ""⟩]
        [⟨"SJ25-0001", "A", "INACTIVE", "t0", "t0", "", "", "", ""⟩]).map
        (·.change_type) = ["DEACTIVATED"] := by
  decide

/-- Equality of rows up to surrounding whitespace in the three fields
`build_changes` reads. -/
def row_read_eq (r s : Row) : Prop :=
  pyStrip r.clinic_id = pyStrip s.clinic_id ∧
    pyStrip r.clinic_name = pyStrip s.clinic_name ∧
    pyStrip r.status = pyStrip s.status

instance (r s : Row) : Decidable (row_read_eq r s) := by
  unfold row_read_eq
  infer_instance

theorem foldl_lookup_step_congr :
    ∀ {df df' : List Row}, List.Forall₂ row_read_eq df df' →
      ∀ acc, df.foldl lookup_step acc = df'.foldl lookup_step acc := by
  intro df df' h
  induction h with
  | nil => intro acc; rfl
  | @cons a b l1 l2 hh htl ih =>
    intro acc
    obtain ⟨e1, e2, e3⟩ := hh
    rw [List.foldl_cons, List.foldl_cons]
    have hstep : lookup_step acc a = lookup_step acc b := by
      unfold lookup_step
      rw [e1, e2, e3]
    rw [hstep]
    exact ih _

/-- Claim C7, amended (whitespace-insensitive status read): stored `clinic_id`,
`clinic_name` and `status` values are read through `str(...).strip()`, so
replacing any of them by the same value with different surrounding whitespace
never changes the output of `build_changes`; the read is however
case-sensitive after stripping, so a different capitalization of a status can
change the classification (see the counterexample). -/
theorem claim_c7_status_read {p p' n n' : List Row}
    (hp : List.Forall₂ row_read_eq p p') (hn : List.Forall₂ row_read_eq n n') :
    build_changes p n = build_changes p' n' := by
  unfold build_changes to_lookup
  rw [foldl_lookup_step_congr hp, foldl_lookup_step_congr hn]

/-- Witness for the amended C7: padding statuses (and an id) with surrounding
whitespace leaves the classification unchanged. -/
theorem claim_c7_status_read_witness :
    row_read_eq ⟨"SJ25-0001", "A", "ACTIVE", "t0", "t0", "", "", "", ""⟩
        ⟨" SJ25-0001", "A", " ACTIVE ", "t0", "t0", "", "", "", ""⟩ ∧
      build_changes [⟨"SJ25-0001", "A", "ACTIVE", "t0", "t0", "", "", "", ""⟩]
          [⟨"SJ25-0001", "A", "INACTIVE", "t0", "t0", "", "", "", ""⟩] =
        build_changes [⟨" SJ25-0001", "A", " ACTIVE ", "t0", "t0", "", "", "", ""⟩]
          [⟨"SJ25-0001", "A", "INACTIVE ", "t0", "t0", "", "", "", ""⟩] :=
  ⟨by decide,
    claim_c7_status_read (List.Forall₂.cons (by decide) List.Forall₂.nil)
      (List.Forall₂.cons (by decide) List.Forall₂.nil)⟩

/-! ## Roster reading: C8 and C9 -/

/-- Counterexample to C8 as stated: two rows whose names both normalize
to the empty string are dropped by the reader (with a logged count), not
reported as duplicates — `read_clinic_records` succeeds with no records. -/
theorem claim_c8_counterexample :
    normalize_name " " = normalize_name "\t" ∧
      read_clinic_records ⟨["n", "a", "p", "d", "h"],
          [[("n", some " ")], [("n", some "\t")]]⟩ "n" "a" "p" "d" "h" =
        .ok [] := by
  decide

/-- Claim C8, amended (fatal duplicate after normalization): `normalize_name`
trims and collapses whitespace, and the reader applies it to every name cell
before the duplicate check, so any sheet whose five configured columns exist
and which contains two rows (at different positions) whose name cells
normalize to the same *non-empty* string makes `read_clinic_records` fail
with a duplicate-name error naming that string — rather than merging or
silently dropping a row.  (Rows normalizing to the empty string are dropped,
not reported: see the counterexample.) -/
theorem claim_c8_duplicate_fatal
    (cols : List String) (l1 l2 l3 : List (List (String × Option String)))
    (r1 r2 : List (String × Option String))
    (nameCol addressCol phoneCol directorCol homepageCol s1 s2 : String)
    (hmiss : ([nameCol, addressCol, phoneCol, directorCol, homepageCol].filter
      (fun c => decide (c ∉ cols))) = [])
    (h1 : getCell r1 nameCol = some s1)
    (h2 : getCell r2 nameCol = some s2)
    (heq : normalize_name s1 = normalize_name s2)
    (hne : normalize_name s1 ≠ "") :
    ∃ dups, read_clinic_records ⟨cols, l1 ++ r1 :: (l2 ++ r2 :: l3)⟩ nameCol
        addressCol phoneCol directorCol homepageCol =
        .error (.duplicateNames dups) ∧ normalize_name s1 ∈ dups := by
  have hr1 : row_to_input nameCol addressCol phoneCol directorCol homepageCol r1 =
      some ⟨normalize_name s1, clean_text (getCell r1 addressCol),
        clean_text (getCell r1 phoneCol), clean_text (getCell r1 directorCol),
        clean_text (getCell r1 homepageCol)⟩ := by
    simp only [row_to_input, h1]
    rw [if_neg hne]
  have hr2 : row_to_input nameCol addressCol phoneCol directorCol homepageCol r2 =
      some ⟨normalize_name s1, clean_text (getCell r2 addressCol),
        clean_text (getCell r2 phoneCol), clean_text (getCell r2 directorCol),
        clean_text (getCell r2 homepageCol)⟩ := by
    simp only [row_to_input, h2]
    rw [← heq, if_neg hne]
  have hnames : (roster_inputs ⟨cols, l1 ++ r1 :: (l2 ++ r2 :: l3)⟩ nameCol
      addressCol phoneCol directorCol homepageCol).map (·.name) =
      ((l1.filterMap (row_to_input nameCol addressCol phoneCol directorCol
        homepageCol)).map (·.name)) ++ normalize_name s1 ::
        (((l2.filterMap (row_to_input nameCol addressCol phoneCol directorCol
          homepageCol)).map (·.name)) ++ normalize_name s1 ::
          ((l3.filterMap (row_to_input nameCol addressCol phoneCol directorCol
            homepageCol)).map (·.name))) := by
    unfold roster_inputs
    rw [List.filterMap_append, List.filterMap_cons, hr1, List.filterMap_append,
      List.filterMap_cons, hr2]
    simp
  have hcount : 2 ≤ ((roster_inputs ⟨cols, l1 ++ r1 :: (l2 ++ r2 :: l3)⟩ nameCol
      addressCol phoneCol directorCol homepageCol).map (·.name)).count
        (normalize_name s1) := by
    rw [hnames]
    rw [List.count_append, List.count_cons_self, List.count_append,
      List.count_cons_self]
    omega
  have hmem : normalize_name s1 ∈ (roster_inputs ⟨cols, l1 ++ r1 :: (l2 ++ r2 :: l3)⟩
      nameCol addressCol phoneCol directorCol homepageCol).map (·.name) := by
    rw [hnames]
    exact List.mem_append_right _ (List.mem_cons_self _ _)
  have hdup : normalize_name s1 ∈ roster_duplicates
      ((roster_inputs ⟨cols, l1 ++ r1 :: (l2 ++ r2 :: l3)⟩ nameCol addressCol
        phoneCol directorCol homepageCol).map (·.name)) := by
    unfold roster_duplicates
    rw [List.mem_filter, List.mem_dedup]
    refine ⟨hmem, ?_⟩
    rw [decide_eq_true_iff]
    omega
  have hnonnil : roster_duplicates ((roster_inputs ⟨cols, l1 ++ r1 :: (l2 ++ r2 :: l3)⟩
      nameCol addressCol phoneCol directorCol homepageCol).map (·.name)) ≠ [] :=
    List.ne_nil_of_mem hdup
  refine ⟨_, ?_, pySorted_mem.mpr hdup⟩
  unfold read_clinic_records
  rw [if_neg (fun hno => hno hmiss), if_pos hnonnil]

/-- Witness for the amended C8 on the spec's own example, `" A "` and `"A"`. -/
theorem claim_c8_duplicate_fatal_witness :
    ([("n" : String), "a", "p", "d", "h"].filter
        (fun c => decide (c ∉ (["n", "a", "p", "d", "h"] : List String))) = []) ∧
      getCell [("n", some " A ")] "n" = some " A " ∧
      getCell [("n", some "A")] "n" = some "A" ∧
      normalize_name " A " = normalize_name "A" ∧
      normalize_name " A " ≠ "" ∧
      ∃ dups, read_clinic_records ⟨["n", "a", "p", "d", "h"],
          [] ++ [("n", some " A ")] :: ([] ++ [("n", some "A")] :: [])⟩ "n" "a" "p"
          "d" "h" = .error (.duplicateNames dups) ∧ normalize_name " A " ∈ dups :=
  ⟨by decide, by decide, by decide, by decide, by decide,
    claim_c8_duplicate_fatal ["n", "a", "p", "d", "h"] [] [] []
      [("n", some " A ")] [("n", some "A")] "n" "a" "p" "d" "h" " A " "A"
      (by decide) (by decide) (by decide) (by decide) (by decide)⟩

/-- Counterexample to C9 as stated: a sheet that has the configured name
column but lacks the other four configured columns is rejected by
`read_clinic_records` — the code treats all five configured columns as
required, not only the name column. -/
theorem claim_c9_counterexample :
    read_clinic_records ⟨["name"], []⟩ "name" "addr" "phone" "dir" "home" =
      .error (.missingColumns ["addr", "phone", "dir", "home"]) := by
  decide

/-- Claim C9, amended (optional roster fields): the four metadata cells of a row
are optional — a row whose name cell is present and normalizes to a non-empty
name, and whose address/phone/director/homepage cells are all absent, yields
a `ClinicInput` with empty strings in those four fields, without error; but
every one of the five configured columns (not only the name column) is
required: if any of them is missing from the sheet, `read_clinic_records`
fails with a missing-column error naming it. -/
theorem claim_c9_optional_fields
    (sheet : Sheet) (nameCol addressCol phoneCol directorCol homepageCol c : String)
    (row : List (String × Option String)) (rn : String) :
    (c ∈ [nameCol, addressCol, phoneCol, directorCol, homepageCol] →
      c ∉ sheet.columns →
      ∃ cols, read_clinic_records sheet nameCol addressCol phoneCol directorCol
          homepageCol = .error (.missingColumns cols) ∧ c ∈ cols) ∧
    (getCell row nameCol = some rn → normalize_name rn ≠ "" →
      getCell row addressCol = none → getCell row phoneCol = none →
      getCell row directorCol = none → getCell row homepageCol = none →
      row_to_input nameCol addressCol phoneCol directorCol homepageCol row =
        some ⟨normalize_name rn, "", "", "", ""⟩) := by
  constructor
  · intro hc hnot
    have hcm : c ∈ [nameCol, addressCol, phoneCol, directorCol, homepageCol].filter
        (fun c => decide (c ∉ sheet.columns)) := by
      rw [List.mem_filter]
      exact ⟨hc, by rw [decide_eq_true_iff]; exact hnot⟩
    have hnonnil := List.ne_nil_of_mem hcm
    refine ⟨_, ?_, hcm⟩
    unfold read_clinic_records
    rw [if_pos hnonnil]
  · intro hn hne ha hp hd hh
    simp only [row_to_input, hn]
    rw [if_neg hne, ha, hp, hd, hh]
    rfl

/-- Witness for the amended C9: a sheet missing the phone column is rejected,
and a row with only a name cell yields empty optional fields. -/
theorem claim_c9_optional_fields_witness :
    (("ph" : String) ∈ ["nm", "ad", "ph", "di", "ho"] ∧
        ("ph" : String) ∉ (["nm", "ad", "di", "ho"] : List String) ∧
        ∃ cols, read_clinic_records ⟨["nm", "ad", "di", "ho"], []⟩ "nm" "ad" "ph"
            "di" "ho" = .error (.missingColumns cols) ∧ ("ph" : String) ∈ cols) ∧
      (getCell [("nm", some " Clinic  B ")] "nm" = some " Clinic  B " ∧
        normalize_name " Clinic  B " ≠ "" ∧
        row_to_input "nm" "ad" "ph" "di" "ho" [("nm", some " Clinic  B ")] =
          some ⟨normalize_name " Clinic  B ", "", "", "", ""⟩) :=
  ⟨⟨by decide, by decide,
      (claim_c9_optional_fields ⟨["nm", "ad", "di", "ho"], []⟩ "nm" "ad" "ph" "di"
        "ho" "ph" [] "").1 (by decide) (by decide)⟩,
    ⟨by decide, by decide,
      (claim_c9_optional_fields ⟨["nm", "ad", "di", "ho"], []⟩ "nm" "ad" "ph" "di"
        "ho" "ph" [("nm", some " Clinic  B ")] " Clinic  B ").2 (by decide)
        (by decide) (by decide) (by decide) (by decide) (by decide)⟩⟩

end DentQR
